import Mathlib

/-!
Verification development for the "you-know" RSS reader.

The data model and operations below are shallow embeddings of the
repository's TypeScript frontend (src/services/api.ts, src/app/page.tsx,
src/src/main.ts, src/components/RSSFeedPanel.tsx) and of the persisted
SQLite schema (src/src-tauri/migrations/20250726123123_init.sql).
TypeScript optional fields become Option, booleans become Bool, strings
become String; the JavaScript Map state of the page becomes an
association list with Map.set semantics; the SQL unique index is
embedded with the SQLite semantics for NULL, under which two NULL guids
never conflict.
-/

namespace YouKnow

/-- RssArticle mirrors the RssArticle interface of src/services/api.ts:
required id, feed_id, title, is_read, is_starred, created_at and optional
link, description, content, author, published_at, guid, read_time. -/
structure RssArticle where
  id : String
  feed_id : String
  title : String
  link : Option String
  description : Option String
  content : Option String
  author : Option String
  published_at : Option String
  guid : Option String
  is_read : Bool
  is_starred : Bool
  read_time : Option String
  created_at : String
deriving DecidableEq

/-- RssFeed mirrors the RssFeed interface of src/services/api.ts. -/
structure RssFeed where
  id : String
  title : String
  url : String
  description : Option String
  website_url : Option String
  last_updated : Option String
  is_active : Bool
  created_at : String
  updated_at : String
deriving DecidableEq

/-- Status variant of a fetch-progress event, from the status field of
RssFetchProgress in src/services/api.ts: Started, InProgress, Completed,
or an object carrying a Failed reason string. -/
inductive RssFetchStatus where
  | Started
  | InProgress
  | Completed
  | Failed (reason : String)
deriving DecidableEq

/-- RssFetchProgress mirrors the interface in src/services/api.ts lines
51-58.  Note that total_articles and fetched_articles are required
number fields there; only current_article_title is optional. -/
structure RssFetchProgress where
  feed_id : String
  feed_title : String
  total_articles : Int
  fetched_articles : Int
  current_article_title : Option String
  status : RssFetchStatus
deriving DecidableEq

/-- RssArticleFetched mirrors the interface in src/services/api.ts. -/
structure RssArticleFetched where
  feed_id : String
  article : RssArticle
deriving DecidableEq

/-- Field descriptor for an embedded TypeScript interface declaration:
the field name, whether the field is declared optional (with a question
mark), and its declared type. -/
structure TsField where
  name : String
  optional : Bool
  tsType : String
deriving DecidableEq

/-- Field list of the RssFetchProgress interface, transcribed from
src/services/api.ts lines 51-58. -/
def rssFetchProgressFields : List TsField :=
  [ { name := "feed_id", optional := false, tsType := "string" },
    { name := "feed_title", optional := false, tsType := "string" },
    { name := "total_articles", optional := false, tsType := "number" },
    { name := "fetched_articles", optional := false, tsType := "number" },
    { name := "current_article_title", optional := true, tsType := "string" },
    { name := "status", optional := false, tsType := "RssFetchStatus" } ]

/-! Persisted schema, from src/src-tauri/migrations/20250726123123_init.sql. -/

/-- One pair of rows at distinct positions is allowed by the unique index
idx_rss_articles_guid_feed on rss_articles(guid, feed_id) unless both
rows carry the same non-NULL guid and the same feed_id.  Under SQLite
semantics a NULL guid never conflicts with anything, including another
NULL. -/
def guidFeedOkPair (r1 r2 : RssArticle) : Bool :=
  !(r1.guid.isSome && r1.guid == r2.guid && r1.feed_id == r2.feed_id)

/-- The whole table satisfies the unique index on (guid, feed_id): every
pair of rows at distinct positions is allowed. -/
def uniqueGuidFeedIndex : List RssArticle → Bool
  | [] => true
  | r :: rs => rs.all (guidFeedOkPair r) && uniqueGuidFeedIndex rs

/-- Rows of the table holding a given (feed_id, guid) key, the guid
possibly absent (NULL). -/
def rowsWithKey (l : List RssArticle) (f : String) (k : Option String) : List RssArticle :=
  l.filter (fun r => r.feed_id == f && r.guid == k)

/-- A concrete article row used in counterexamples and witnesses. -/
def mkRow (i : String) (f : String) (g : Option String) : RssArticle :=
  { id := i, feed_id := f, title := "t", link := none, description := none,
    content := none, author := none, published_at := none, guid := g,
    is_read := false, is_starred := false, read_time := none, created_at := "c" }

/-- Two rows in the same feed, both with NULL guid: SQLite accepts them
under the unique index. -/
def nullGuidTable : List RssArticle :=
  [mkRow "a1" "f1" none, mkRow "a2" "f1" none]

/-- Database state: the rows of rss_feeds and rss_articles. -/
structure Database where
  feeds : List RssFeed
  articles : List RssArticle
deriving DecidableEq

/-- Deleting a feed row, with the ON DELETE CASCADE clause of the
rss_articles foreign key removing every article row whose feed_id
references the deleted feed. -/
def deleteFeedCascade (db : Database) (feedId : String) : Database :=
  { feeds := db.feeds.filter (fun f => f.id != feedId),
    articles := db.articles.filter (fun a => a.feed_id != feedId) }

/-- Resolving an article row by its primary key, as get_article_content
does over rss_articles. -/
def getArticle (db : Database) (articleId : String) : Option RssArticle :=
  db.articles.find? (fun a => a.id == articleId)

/-- A concrete feed row used in witnesses. -/
def exFeed : RssFeed :=
  { id := "f1", title := "Feed", url := "https://e.com/rss",
    description := none, website_url := none, last_updated := none,
    is_active := true, created_at := "c", updated_at := "u" }

/-- Concrete database: one feed f1 with one article a1. -/
def exampleDb : Database :=
  { feeds := [exFeed], articles := [mkRow "a1" "f1" (some "g1")] }

/-- Error case of adding a feed whose url collides with an existing row
(the UNIQUE constraint on rss_feeds.url). -/
inductive AddFeedError where
  | DuplicateUrl
deriving DecidableEq

/-- Adding a feed row under the UNIQUE constraint on rss_feeds.url: the
insert fails with DuplicateUrl when some row already carries the url,
otherwise the new row is stored. -/
def addFeed (feeds : List RssFeed) (f : RssFeed) :
    Except AddFeedError (List RssFeed) :=
  if feeds.any (fun g => g.url == f.url) then .error .DuplicateUrl
  else .ok (feeds ++ [f])

/-- Deleting a feed row from the registry by id. -/
def deleteFeedRows (feeds : List RssFeed) (feedId : String) : List RssFeed :=
  feeds.filter (fun f => f.id != feedId)

/-- States of the feed store reachable from the empty table by successful
feed additions and feed deletions. -/
inductive ReachableFeeds : List RssFeed → Prop where
  | init : ReachableFeeds []
  | add (s : List RssFeed) (f : RssFeed) (s2 : List RssFeed) :
      ReachableFeeds s → addFeed s f = .ok s2 → ReachableFeeds s2
  | del (s : List RssFeed) (feedId : String) :
      ReachableFeeds s → ReachableFeeds (deleteFeedRows s feedId)

/-! Progress state of the page (src/app/page.tsx lines 97-123): a
JavaScript Map from feed_id to the latest RssFetchProgress, updated by
newMap.set(progress.feed_id, progress) on every delivered event.
Map.set replaces the value of an existing key in place and otherwise
appends a new entry; the association-list mapSet below has exactly that
semantics.  The delayed cleanup for Completed and Failed runs only
deletes an entry three seconds later and never adds one. -/

/-- Map.set on an association list: replace the first binding of the key,
keeping its position, or append a fresh binding. -/
def mapSet : List (String × RssFetchProgress) → String → RssFetchProgress →
    List (String × RssFetchProgress)
  | [], k, v => [(k, v)]
  | p :: ps, k, v => if p.1 == k then (k, v) :: ps else p :: mapSet ps k v

/-- Handler of one rss-fetch-progress event: store the event under its
feed_id, superseding any previous entry for that feed. -/
def handleProgressEvent (m : List (String × RssFetchProgress))
    (e : RssFetchProgress) : List (String × RssFetchProgress) :=
  mapSet m e.feed_id e

/-- Consumer state after a sequence of delivered progress events,
starting from the empty Map of the initial page state. -/
def processProgressEvents (es : List RssFetchProgress) :
    List (String × RssFetchProgress) :=
  es.foldl handleProgressEvent []

/-- Lookup of the entry a feed has in the progress map. -/
def lookupProgress (m : List (String × RssFetchProgress)) (k : String) :
    Option RssFetchProgress :=
  (m.find? (fun p => p.1 == k)).map (fun p => p.2)

/-! Article flag updates.  UpdateArticleRequest is the interface of
src/services/api.ts lines 37-41; applying a request follows
updateArticleStatus in src/src/main.ts lines 215-237 (a field is written
only when the request specifies it) and the object spread (spread the
article, then spread the updates) of handleUpdateArticle in
src/app/page.tsx lines 179-199, which agree. -/

/-- UpdateArticleRequest mirrors the interface in src/services/api.ts:
required id, optional is_read and is_starred. -/
structure UpdateArticleRequest where
  id : String
  is_read : Option Bool
  is_starred : Option Bool
deriving DecidableEq

/-- Applying a flag-update request to an article: is_read and is_starred
are overwritten only when the request carries them; every other field is
untouched. -/
def applyUpdate (a : RssArticle) (u : UpdateArticleRequest) : RssArticle :=
  { a with
    is_read := match u.is_read with | some b => b | none => a.is_read,
    is_starred := match u.is_starred with | some b => b | none => a.is_starred }

/-- ExtendedArticle mirrors the ExtendedArticle interface of
src/app/page.tsx lines 14-19: an RssArticle with optional feedName,
readTime, image, summary. -/
structure ExtendedArticle extends RssArticle where
  feedName : Option String
  readTime : Option String
  image : Option String
  summary : Option String
deriving DecidableEq

/-- Page state: the feeds and articles React state of HomePage. -/
structure PageState where
  feeds : List RssFeed
  articles : List ExtendedArticle
deriving DecidableEq

/-- handleAddFeed of src/app/page.tsx lines 156-176 in the desktop
branch: the feed returned by add_rss_feed_async is appended to the feeds
state and nothing else in the state is written. -/
def handleAddFeed (s : PageState) (newFeed : RssFeed) : PageState :=
  { s with feeds := s.feeds ++ [newFeed] }

/-! Unread statistics, computed on demand from the article state: the
per-feed count from src/app/page.tsx lines 267-274 (and
feedsWithUnreadCount in src/components/RSSFeedPanel.tsx lines 53-57,
updateFeedCounts in src/src/main.ts lines 293-309), the total count from
totalUnreadCount in src/components/RSSFeedPanel.tsx line 75 (and
updateFeedCounts). -/

/-- Unread count displayed for one feed: the filter-and-length expression
of the code. -/
def unreadCountForFeed (articles : List ExtendedArticle) (feedId : String) : Nat :=
  (articles.filter (fun article => article.feed_id == feedId && !article.is_read)).length

/-- Total unread count displayed: the filter-and-length expression of the
code. -/
def totalUnread (articles : List ExtendedArticle) : Nat :=
  (articles.filter (fun article => !article.is_read)).length

/-- Feed list enriched with unread_count as page.tsx passes it to
RSSFeedPanel: each feed paired with its computed unread count. -/
def feedsWithUnreadCount (feeds : List RssFeed) (articles : List ExtendedArticle) :
    List (RssFeed × Nat) :=
  feeds.map (fun feed => (feed, unreadCountForFeed articles feed.id))

/-! Arrival of one fetched article (src/app/page.tsx lines 125-145): the
article of the event is enriched with feedName, readTime and summary
following JavaScript truthiness (the empty string and an absent value
are falsy for the or-chains of the code), then prepended to the articles
state unless an article with the same id is already present. -/

/-- JavaScript or on strings: the left operand unless it is falsy (the
empty string), otherwise the right one. -/
def jsOrString (a b : String) : String :=
  if a == "" then b else a

/-- feedName computed by the handler: the title of the feed found by
feed_id, or the fallback text when the feed is missing or its title is
falsy. -/
def feedNameFor (feeds : List RssFeed) (feedId : String) : String :=
  match feeds.find? (fun f => f.id == feedId) with
  | some f => jsOrString f.title "Unknown Feed"
  | none => "Unknown Feed"

/-- summary computed by the handler: the description, else the first 200
characters of the content followed by an ellipsis (the JavaScript
expression concatenates the string undefined when the content is
absent), else the fallback text. -/
def summaryFor (a : RssArticle) : String :=
  jsOrString (match a.description with | some d => d | none => "")
    (jsOrString
      ((match a.content with | some c => c.take 200 | none => "undefined") ++ "...")
      "No summary available")

/-- readTime computed by the handler: article.read_time or undefined, so
a falsy read_time collapses to an absent value. -/
def readTimeFor (a : RssArticle) : Option String :=
  match a.read_time with
  | some t => if t == "" then none else some t
  | none => none

/-- Enrichment of an incoming article into the ExtendedArticle stored in
the page state, as built at src/app/page.tsx lines 126-133. -/
def enrichArticle (feeds : List RssFeed) (feedId : String) (a : RssArticle) :
    ExtendedArticle :=
  { toRssArticle := a,
    feedName := some (feedNameFor feeds feedId),
    readTime := readTimeFor a,
    image := none,
    summary := some (summaryFor a) }

/-- Core of the rss-article-fetched handler (src/app/page.tsx lines
135-142): prepend the new article unless some stored article already has
its id. -/
def handleArticleFetched (prev : List ExtendedArticle)
    (newArticle : ExtendedArticle) : List ExtendedArticle :=
  if prev.any (fun article => article.id == newArticle.id) then prev
  else newArticle :: prev

/-- Full handler of one rss-article-fetched event: enrich, then insert. -/
def handleArticleEvent (feeds : List RssFeed) (prev : List ExtendedArticle)
    (ev : RssArticleFetched) : List ExtendedArticle :=
  handleArticleFetched prev (enrichArticle feeds ev.feed_id ev.article)

/-! Selecting an article (src/app/page.tsx lines 304-310 with
handleUpdateArticle at lines 179-199, and openArticle in src/src/main.ts
lines 169-176): when the selected article is unread, exactly one update
request with is_read true is issued and the local list marks that
article read; when it is already read, no request is issued and the list
is untouched. -/

/-- Applying a flag-update request to a stored ExtendedArticle, the
object-spread update of handleUpdateArticle. -/
def applyUpdateExtended (a : ExtendedArticle) (u : UpdateArticleRequest) :
    ExtendedArticle :=
  { a with toRssArticle := applyUpdate a.toRssArticle u }

/-- handleUpdateArticle: issue one update_article request built from the
article id and the given flags, and update the matching stored article in
place.  Returns the issued requests and the new article list. -/
def handleUpdateArticle (articles : List ExtendedArticle) (articleId : String)
    (readFlag starFlag : Option Bool) :
    List UpdateArticleRequest × List ExtendedArticle :=
  let req : UpdateArticleRequest :=
    { id := articleId, is_read := readFlag, is_starred := starFlag }
  ([req],
    articles.map (fun article =>
      if article.id == articleId then applyUpdateExtended article req
      else article))

/-- onArticleSelect: mark the article read only when it is not already
read. -/
def onArticleSelect (articles : List ExtendedArticle) (article : ExtendedArticle) :
    List UpdateArticleRequest × List ExtendedArticle :=
  if article.is_read then ([], articles)
  else handleUpdateArticle articles article.id (some true) none

/-- A concrete stored ExtendedArticle for witnesses. -/
def exStored : ExtendedArticle :=
  { toRssArticle := mkRow "a1" "f1" (some "g1"),
    feedName := none, readTime := none, image := none, summary := none }

/-! Theorems. -/

theorem uniqueGuidFeedIndex_mem_eq {l : List RssArticle}
    (h : uniqueGuidFeedIndex l = true) {r1 r2 : RssArticle} {f : String} {k : String}
    (h1 : r1 ∈ l) (h2 : r2 ∈ l)
    (hf1 : r1.feed_id = f) (hf2 : r2.feed_id = f)
    (hg1 : r1.guid = some k) (hg2 : r2.guid = some k) : r1 = r2 := by
  induction l with
  | nil => cases h1
  | cons x xs ih =>
    simp only [uniqueGuidFeedIndex, Bool.and_eq_true, List.all_eq_true] at h
    rcases List.mem_cons.mp h1 with rfl | h1m
    · rcases List.mem_cons.mp h2 with rfl | h2m
      · rfl
      · exfalso
        have := h.1 r2 h2m
        simp [guidFeedOkPair, hg1, hg2, hf1, hf2, Option.isSome] at this
    · rcases List.mem_cons.mp h2 with rfl | h2m
      · exfalso
        have := h.1 r1 h1m
        simp [guidFeedOkPair, hg1, hg2, hf1, hf2, Option.isSome] at this
      · exact ih h.2 h1m h2m

/-- C1 counterexample: the table nullGuidTable passes the unique index on
(guid, feed_id) under SQLite NULL semantics, yet it holds two rows with
feed_id f1 and an absent (NULL) guid, so the claimed at-most-one bound
fails for absent dedup keys. -/
theorem c1_counterexample_null_guid :
    uniqueGuidFeedIndex nullGuidTable = true ∧
      ¬ (rowsWithKey nullGuidTable "f1" none).length ≤ 1 := by
  constructor
  · decide
  · decide

/-- C1 (amended): for every table whose article ids are pairwise distinct
(the PRIMARY KEY) and that is accepted by the uniqueness constraint on
(guid, feed_id), and for every feed f and present (non-NULL) guid k, at
most one article row carries (feed_id = f, guid = k); rows whose guid is
absent are not constrained by the index. -/
theorem c1_unique_guid_feed_amended {l : List RssArticle}
    (hidx : uniqueGuidFeedIndex l = true) (hid : (l.map RssArticle.id).Nodup)
    (f : String) (k : String) :
    (rowsWithKey l f (some k)).length ≤ 1 := by
  have hsub : (rowsWithKey l f (some k)).Sublist l := List.filter_sublist l
  have hnd : (rowsWithKey l f (some k)).Nodup := (hid.of_map _).sublist hsub
  have hall : ∀ r1 ∈ rowsWithKey l f (some k), ∀ r2 ∈ rowsWithKey l f (some k), r1 = r2 := by
    intro r1 hr1 r2 hr2
    have m1 := hsub.mem hr1
    have m2 := hsub.mem hr2
    have p1 := List.of_mem_filter hr1
    have p2 := List.of_mem_filter hr2
    simp only [Bool.and_eq_true, beq_iff_eq] at p1 p2
    exact uniqueGuidFeedIndex_mem_eq hidx m1 m2 p1.1 p2.1 p1.2 p2.2
  match hrw : rowsWithKey l f (some k) with
  | [] => simp
  | [r] => simp
  | r1 :: r2 :: rs =>
    exfalso
    rw [hrw] at hnd hall
    have he : r1 = r2 := hall r1 (by simp) r2 (by simp)
    exact (List.nodup_cons.mp hnd).1 (by simp [he])

/-- Witness for c1_unique_guid_feed_amended on a concrete two-row table
with distinct guids inside one feed. -/
theorem c1_unique_guid_feed_amended_witness :
    (rowsWithKey [mkRow "a1" "f1" (some "g1"), mkRow "a2" "f1" (some "g2")]
      "f1" (some "g1")).length ≤ 1 :=
  c1_unique_guid_feed_amended (by decide) (by decide) "f1" "g1"

/-- C4 counterexample: in the RssFetchProgress interface of
src/services/api.ts the best-effort total entry count is not declared as
an optional field, so the claim that the event represents it as an
explicit optional value that may be absent is false of the declaration
itself. -/
theorem c4_counterexample_total_not_optional :
    (∃ fd ∈ rssFetchProgressFields,
      fd.name = "total_articles" ∧ fd.optional = true) = False :=
  eq_false (by decide)

/-- C4 (amended): the progress event declares total_articles as a
required (non-optional) field of TypeScript type number, so an unknown
total must be encoded by a numeric value rather than by absence; only
current_article_title is optional in the event. -/
theorem c4_total_required_number :
    (∃ fd ∈ rssFetchProgressFields,
      fd.name = "total_articles" ∧ fd.optional = false ∧ fd.tsType = "number") ∧
    (∀ fd ∈ rssFetchProgressFields, fd.optional = true →
      fd.name = "current_article_title") := by
  decide

/-- Witness for c4_total_required_number at the one optional field of the
interface. -/
theorem c4_total_required_number_witness :
    ({ name := "current_article_title", optional := true,
       tsType := "string" } : TsField).name = "current_article_title" :=
  c4_total_required_number.2 _ (by decide) rfl

/-- C2: after deleting a feed, no article row with the deleted feed id
remains, and every article that referenced the deleted feed is no longer
resolvable by its id (given the PRIMARY KEY on rss_articles.id, i.e.
pairwise-distinct article ids). -/
theorem c2_cascade_delete (db : Database) (feedId : String)
    (hid : (db.articles.map RssArticle.id).Nodup) :
    (∀ a ∈ (deleteFeedCascade db feedId).articles, a.feed_id ≠ feedId) ∧
    (∀ a ∈ db.articles, a.feed_id = feedId →
      getArticle (deleteFeedCascade db feedId) a.id = none) := by
  constructor
  · intro a ha
    have := List.of_mem_filter ha
    simpa using this
  · intro a ha hf
    apply List.find?_eq_none.mpr
    intro b hb
    have hbm : b ∈ db.articles := List.mem_of_mem_filter hb
    have hbf : b.feed_id ≠ feedId := by
      have := List.of_mem_filter hb
      simpa using this
    intro hbeq
    have hbid : b.id = a.id := by simpa using hbeq
    have : b = a := List.inj_on_of_nodup_map hid hbm ha hbid
    exact hbf (this ▸ hf)

/-- Witness for c2_cascade_delete: deleting feed f1 of exampleDb makes
its article a1 unresolvable. -/
theorem c2_cascade_delete_witness :
    getArticle (deleteFeedCascade exampleDb "f1") "a1" = none :=
  (c2_cascade_delete exampleDb "f1" (by decide)).2
    (mkRow "a1" "f1" (some "g1")) (by decide) rfl

/-- C3: in every reachable state of the feed store the url column is
duplicate-free, and adding a feed whose url is already present fails with
DuplicateUrl instead of creating a second row. -/
theorem c3_url_unique {s : List RssFeed} (h : ReachableFeeds s) :
    (s.map RssFeed.url).Nodup ∧
    (∀ f : RssFeed, (∃ g ∈ s, g.url = f.url) →
      addFeed s f = .error .DuplicateUrl) := by
  have hdup : ∀ t : List RssFeed, ∀ f : RssFeed, (∃ g ∈ t, g.url = f.url) →
      addFeed t f = .error .DuplicateUrl := by
    intro t f ⟨g, hg, hu⟩
    have : t.any (fun g => g.url == f.url) = true := by
      simp only [List.any_eq_true]
      exact ⟨g, hg, by simp [hu]⟩
    simp [addFeed, this]
  refine ⟨?_, hdup s⟩
  induction h with
  | init => simp
  | add s f s2 _ heq ih =>
    by_cases hc : s.any (fun g => g.url == f.url) = true
    · simp [addFeed, hc] at heq
    · simp only [addFeed, hc] at heq
      simp only [Bool.false_eq_true, if_neg] at heq
      cases heq with
      | refl =>
        rw [List.map_append]
        apply List.Nodup.append ih (by simp)
        intro u hu hu2
        simp only [List.map_cons, List.map_nil, List.mem_singleton] at hu2
        subst hu2
        simp only [List.mem_map] at hu
        obtain ⟨g, hg, hgu⟩ := hu
        exact hc (by simp only [List.any_eq_true]; exact ⟨g, hg, by simp [hgu]⟩)
  | del s feedId _ ih =>
    have hsub : (deleteFeedRows s feedId).Sublist s := List.filter_sublist s
    exact ih.sublist (hsub.map RssFeed.url)

/-- Witness for c3_url_unique: from the reachable singleton state holding
one feed, adding another feed with the same url is rejected. -/
theorem c3_url_unique_witness :
    addFeed [exFeed]
      { id := "f2", title := "Other", url := "https://e.com/rss",
        description := none, website_url := none, last_updated := none,
        is_active := true, created_at := "c2", updated_at := "u2" } =
      .error .DuplicateUrl := by
  have hr : ReachableFeeds [exFeed] :=
    ReachableFeeds.add [] _ _ ReachableFeeds.init rfl
  exact (c3_url_unique hr).2 _ ⟨exFeed, by simp, rfl⟩

theorem mapSet_keys (m : List (String × RssFetchProgress)) (k : String)
    (v : RssFetchProgress) :
    (mapSet m k v).map Prod.fst = m.map Prod.fst ∨
    (mapSet m k v).map Prod.fst = m.map Prod.fst ++ [k] ∧ k ∉ m.map Prod.fst := by
  induction m with
  | nil => right; simp [mapSet]
  | cons p ps ih =>
    by_cases hc : p.1 == k
    · left
      have : p.1 = k := by simpa using hc
      simp [mapSet, hc, this]
    · rcases ih with h1 | ⟨h2, h3⟩
      · left; simp [mapSet, hc, h1]
      · right
        constructor
        · simp [mapSet, hc, h2]
        · simp only [List.map_cons, List.mem_cons]
          rintro (h | h)
          · exact hc (by simp [h])
          · exact h3 h

theorem mapSet_keys_nodup {m : List (String × RssFetchProgress)}
    (h : (m.map Prod.fst).Nodup) (k : String) (v : RssFetchProgress) :
    ((mapSet m k v).map Prod.fst).Nodup := by
  rcases mapSet_keys m k v with h1 | ⟨h2, h3⟩
  · rw [h1]; exact h
  · rw [h2]
    apply List.Nodup.append h (by simp)
    intro u hu hu2
    simp only [List.mem_singleton] at hu2
    subst hu2
    exact h3 hu

theorem lookupProgress_mapSet (m : List (String × RssFetchProgress))
    (k : String) (v : RssFetchProgress) (k2 : String) :
    lookupProgress (mapSet m k v) k2 =
      if k = k2 then some v else lookupProgress m k2 := by
  induction m with
  | nil =>
    by_cases hc : k = k2
    · subst hc; simp [mapSet, lookupProgress]
    · have hb : ((k, v).1 == k2) = false := by simpa using hc
      simp [mapSet, lookupProgress, List.find?_cons_of_neg, hb, hc]
  | cons p ps ih =>
    by_cases hp : p.1 = k
    · by_cases hc : k = k2
      · subst hc
        simp [mapSet, lookupProgress, hp]
      · have hb : ((k, v).1 == k2) = false := by simpa using hc
        have hb2 : (p.1 == k2) = false := by simp [hp, hc]
        simp [mapSet, lookupProgress, hp, List.find?_cons_of_neg, hb, hb2, hc]
    · have hpb : (p.1 == k) = false := by simpa using hp
      by_cases hp2 : p.1 = k2
      · have hc : ¬ k = k2 := fun h => hp (h ▸ hp2)
        have hb2 : (p.1 == k2) = true := by simpa using hp2
        simp [mapSet, lookupProgress, hpb, hb2, hc]
      · have hb2 : (p.1 == k2) = false := by simpa using hp2
        have lhs : lookupProgress (p :: mapSet ps k v) k2 =
            lookupProgress (mapSet ps k v) k2 := by
          simp [lookupProgress, List.find?_cons_of_neg, hb2]
        have rhs : lookupProgress (p :: ps) k2 = lookupProgress ps k2 := by
          simp [lookupProgress, List.find?_cons_of_neg, hb2]
        simp only [mapSet, hpb, Bool.false_eq_true, if_neg, ite_false]
        rw [lhs, rhs, ih]

theorem progress_keys_nodup_fold (m : List (String × RssFetchProgress))
    (es : List RssFetchProgress) (h : (m.map Prod.fst).Nodup) :
    ((es.foldl handleProgressEvent m).map Prod.fst).Nodup := by
  induction es generalizing m with
  | nil => simpa using h
  | cons e rest ih =>
    simpa [List.foldl_cons] using ih _ (mapSet_keys_nodup h e.feed_id e)

theorem lookupProgress_fold (m : List (String × RssFetchProgress))
    (es : List RssFetchProgress) (k : String) :
    lookupProgress (es.foldl handleProgressEvent m) k =
      (es.reverse.find? (fun e => e.feed_id == k)).or (lookupProgress m k) := by
  induction es generalizing m with
  | nil => simp
  | cons e rest ih =>
    rw [List.foldl_cons, ih, List.reverse_cons, List.find?_append]
    cases hfind : rest.reverse.find? (fun e => e.feed_id == k) with
    | some x => simp
    | none =>
      simp only [Option.none_or, handleProgressEvent, lookupProgress_mapSet]
      by_cases hc : e.feed_id = k
      · have hb : (e.feed_id == k) = true := by simpa using hc
        simp [List.find?_cons_of_pos, hb, hc]
      · have hb : (e.feed_id == k) = false := by simpa using hc
        have hck : ¬ k = e.feed_id := fun h => hc h.symm
        simp [List.find?_cons_of_neg, hb, hck]
        exact fun h => absurd h hc

/-- C5: after any sequence of delivered progress events the progress
state of the page holds at most one entry per feed id (its key list is
duplicate-free), and the entry stored for a feed is exactly the most
recently delivered progress event for that feed (none when no event for
the feed arrived). -/
theorem c5_progress_superseding (es : List RssFetchProgress) (k : String) :
    ((processProgressEvents es).map Prod.fst).Nodup ∧
    lookupProgress (processProgressEvents es) k =
      es.reverse.find? (fun e => e.feed_id == k) := by
  constructor
  · exact progress_keys_nodup_fold [] es (by simp)
  · rw [processProgressEvents, lookupProgress_fold]
    simp [lookupProgress, Option.or_none]

/-- C6: the flag update is a partial update.  A request that leaves
is_starred unspecified preserves is_starred, a request that leaves
is_read unspecified preserves is_read, and no request changes any field
of the article other than the two flags. -/
theorem c6_flags_partial_update (a : RssArticle) (u u1 u2 : UpdateArticleRequest)
    (h1 : u1.is_starred = none) (h2 : u2.is_read = none) :
    (applyUpdate a u1).is_starred = a.is_starred ∧
    (applyUpdate a u2).is_read = a.is_read ∧
    (applyUpdate a u).id = a.id ∧
    (applyUpdate a u).feed_id = a.feed_id ∧
    (applyUpdate a u).title = a.title ∧
    (applyUpdate a u).link = a.link ∧
    (applyUpdate a u).description = a.description ∧
    (applyUpdate a u).content = a.content ∧
    (applyUpdate a u).author = a.author ∧
    (applyUpdate a u).published_at = a.published_at ∧
    (applyUpdate a u).guid = a.guid ∧
    (applyUpdate a u).read_time = a.read_time ∧
    (applyUpdate a u).created_at = a.created_at := by
  refine ⟨?_, ?_, rfl, rfl, rfl, rfl, rfl, rfl, rfl, rfl, rfl, rfl, rfl⟩
  · simp [applyUpdate, h1]
  · simp [applyUpdate, h2]

/-- Witness for c6_flags_partial_update: a read-only request preserves
the star flag on a concrete article. -/
theorem c6_flags_partial_update_witness :
    (applyUpdate (mkRow "a1" "f1" (some "g1"))
      { id := "a1", is_read := some true, is_starred := none }).is_starred =
      (mkRow "a1" "f1" (some "g1")).is_starred :=
  (c6_flags_partial_update (mkRow "a1" "f1" (some "g1"))
    { id := "a1", is_read := some true, is_starred := none }
    { id := "a1", is_read := some true, is_starred := none }
    { id := "a1", is_read := none, is_starred := some true }
    rfl rfl).1

/-- C7: the asynchronous add-feed handler appends the returned feed to
the feed list and leaves the article projection untouched; articles of
the new feed can enter the projection only through the article-arrived
event handler. -/
theorem c7_add_feed_frame (s : PageState) (f : RssFeed) :
    (handleAddFeed s f).articles = s.articles ∧
    (handleAddFeed s f).feeds = s.feeds ++ [f] := by
  exact ⟨rfl, rfl⟩

/-- C8: the displayed unread statistics are pure functions of the current
article state.  Every feed entry displays as unread count the number of
articles with that feed id and is_read = false, and the displayed total
is the number of articles with is_read = false. -/
theorem c8_unread_projection (feeds : List RssFeed)
    (articles : List ExtendedArticle) :
    (∀ p ∈ feedsWithUnreadCount feeds articles,
      p.2 = articles.countP (fun a => decide (a.feed_id = p.1.id ∧ a.is_read = false))) ∧
    totalUnread articles = articles.countP (fun a => decide (a.is_read = false)) := by
  constructor
  · intro p hp
    simp only [feedsWithUnreadCount, List.mem_map] at hp
    obtain ⟨feed, _, rfl⟩ := hp
    simp only [unreadCountForFeed, List.countP_eq_length_filter]
    congr 1
    apply List.filter_congr
    intro a _
    cases h : a.is_read <;>
      cases hf : decide (a.feed_id = feed.id) <;>
        simp_all
  · simp only [totalUnread, List.countP_eq_length_filter]
    congr 1
    apply List.filter_congr
    intro a _
    cases h : a.is_read <;> simp [h]

theorem handleArticleFetched_nodup {prev : List ExtendedArticle}
    (h : (prev.map (fun a => a.id)).Nodup) (x : ExtendedArticle) :
    ((handleArticleFetched prev x).map (fun a => a.id)).Nodup := by
  by_cases hc : prev.any (fun article => article.id == x.id) = true
  · simpa [handleArticleFetched, hc] using h
  · have hx : x.id ∉ prev.map (fun a => a.id) := by
      intro hm
      simp only [List.mem_map] at hm
      obtain ⟨b, hbm, hbe⟩ := hm
      apply hc
      simp only [List.any_eq_true]
      exact ⟨b, hbm, by simp [hbe]⟩
    simp only [handleArticleFetched, hc, if_false, Bool.false_eq_true]
    simpa [List.nodup_cons, hx] using h

/-- C9: the article-arrived handler is idempotent on ids.  Inserting an
incoming article returns the list unchanged exactly when its id already
occurs, and prepends it exactly once otherwise; consequently a state
whose ids are pairwise distinct keeps pairwise-distinct ids across any
sequence of article-arrived events. -/
theorem c9_article_event_idempotent (feeds : List RssFeed)
    (prev : List ExtendedArticle) (evs : List RssArticleFetched)
    (x : ExtendedArticle) :
    (handleArticleFetched prev x =
      if ∃ b ∈ prev, b.id = x.id then prev else x :: prev) ∧
    ((prev.map (fun a => a.id)).Nodup →
      ((evs.foldl (handleArticleEvent feeds) prev).map (fun a => a.id)).Nodup) := by
  constructor
  · by_cases h : ∃ b ∈ prev, b.id = x.id
    · have hb : prev.any (fun article => article.id == x.id) = true := by
        obtain ⟨b, hbm, hbe⟩ := h
        simp only [List.any_eq_true]
        exact ⟨b, hbm, by simp [hbe]⟩
      simp [handleArticleFetched, hb, h]
    · have hb : prev.any (fun article => article.id == x.id) = false := by
        rw [Bool.eq_false_iff]
        intro hc
        apply h
        simp only [List.any_eq_true] at hc
        obtain ⟨b, hbm, hbe⟩ := hc
        exact ⟨b, hbm, by simpa using hbe⟩
      simp [handleArticleFetched, hb, h]
  · intro h
    induction evs generalizing prev with
    | nil => simpa using h
    | cons ev rest ih =>
      exact ih _ (handleArticleFetched_nodup h _)

/-- Witness for c9_article_event_idempotent: from the singleton state the
ids stay pairwise distinct after one article-arrived event, and
re-inserting the stored article is a no-op. -/
theorem c9_article_event_idempotent_witness :
    handleArticleFetched [exStored] exStored = [exStored] ∧
    ((([{ feed_id := "f1", article := mkRow "a2" "f1" (some "g2") }] :
        List RssArticleFetched).foldl (handleArticleEvent []) [exStored]).map
      (fun a => a.id)).Nodup := by
  constructor
  · rw [(c9_article_event_idempotent [] [exStored] [] exStored).1]
    rw [if_pos ⟨exStored, by simp, rfl⟩]
  · exact (c9_article_event_idempotent [] [exStored]
      [{ feed_id := "f1", article := mkRow "a2" "f1" (some "g2") }] exStored).2
      (by simp)

/-- C10: selecting an unread article issues exactly one flag update,
carrying is_read true and no is_starred, and every stored article with
the selected id is read afterwards; selecting an already-read article
issues no update and leaves the article list unchanged. -/
theorem c10_select_marks_read (articles : List ExtendedArticle)
    (a b : ExtendedArticle) (ha : a.is_read = false) (hb : b.is_read = true) :
    (onArticleSelect articles a).1 =
      [{ id := a.id, is_read := some true, is_starred := none }] ∧
    (∀ c ∈ (onArticleSelect articles a).2, c.id = a.id → c.is_read = true) ∧
    (onArticleSelect articles b).1 = [] ∧
    (onArticleSelect articles b).2 = articles := by
  refine ⟨?_, ?_, ?_, ?_⟩
  · simp [onArticleSelect, ha, handleUpdateArticle]
  · intro c hc hcid
    simp only [onArticleSelect, ha, Bool.false_eq_true, if_false,
      handleUpdateArticle, List.mem_map] at hc
    obtain ⟨d, _, rfl⟩ := hc
    by_cases hd : d.id == a.id
    · simp [hd, applyUpdateExtended, applyUpdate]
    · simp only [hd, if_false, Bool.false_eq_true] at hcid ⊢
      exact absurd hcid (by simpa using hd)
  · simp [onArticleSelect, hb]
  · simp [onArticleSelect, hb]

/-- Witness for c10_select_marks_read: selecting the unread stored
article issues the single read-marking request, and selecting a read
article leaves the list alone. -/
theorem c10_select_marks_read_witness :
    (onArticleSelect [exStored] exStored).1 =
      [{ id := "a1", is_read := some true, is_starred := none }] ∧
    (onArticleSelect [exStored]
      { exStored with toRssArticle := { exStored.toRssArticle with is_read := true } }).2 =
      [exStored] := by
  have h := c10_select_marks_read [exStored] exStored
    { exStored with toRssArticle := { exStored.toRssArticle with is_read := true } }
    rfl rfl
  exact ⟨h.1, h.2.2.2⟩

end YouKnow
